import Mathlib

/-!
Shallow embedding of the daily-stock-newsletter level-break scanner
(`src/http/get-quotes/index.ts`).

Prices are JavaScript numbers on which the handler performs only order
comparisons, so they are modelled as rationals.  JavaScript strings are
modelled as Lean strings; `String.prototype.split(' ')` is modelled by a
character-list split (`jsSplit`) with the exact JS semantics (empty
segments are kept, `"".split(' ') = [""]`).  Values that may be
`undefined` are modelled as `Option`; JS truthiness of a string-or-
undefined value is `jsTruthy`.  Fallible code (a thrown exception, a
failed fetch) is modelled with `Option`.
-/

/-- Daily OHLC quote for one symbol (fields of the upstream `/quote`
response read by the handler). -/
structure Quote where
  o : ℚ
  h : ℚ
  l : ℚ
  c : ℚ
deriving DecidableEq, Repr

/-- `LevelBreak` record: `{broke, resistance?, support?, closedBroken?}`.
Optional JS fields are `Option`s (`none` = field absent / `undefined`). -/
structure LevelBreak where
  broke : Bool
  resistance : Option ℚ
  support : Option ℚ
  closedBroken : Option Bool
deriving DecidableEq, Repr

/-- `ParsedResults`: the merged per-symbol data (`quotes` spread plus the
`levels` sequence). -/
structure ParsedResults where
  quotes : Quote
  supportResistance : List ℚ
deriving DecidableEq, Repr

/-- The body of the `.map` callback inside `determineLevelBreaks`:
for one level, evaluate the two break conditions against the quote and
build the `LevelBreak` object (support branch first, as in the source). -/
def mkBreak (q : Quote) (level : ℚ) : LevelBreak :=
  if q.o ≤ level ∧ q.h ≥ level then
    { broke := true
      resistance := some level
      support := none
      closedBroken := some (decide (q.c ≥ level)) }
  else if q.o ≥ level ∧ q.l ≤ level then
    { broke := true
      resistance := none
      support := some level
      closedBroken := some (decide (q.c ≤ level)) }
  else
    { broke := false, resistance := none, support := none, closedBroken := none }

/-- `determineLevelBreaks`: map every level through `mkBreak`, then keep
only the entries with `broke` truthy (`.filter(({broke}) => broke)`). -/
def determineLevelBreaks (results : ParsedResults) : List LevelBreak :=
  (results.supportResistance.map (mkBreak results.quotes)).filter
    (fun lb => lb.broke)

/-- JavaScript `string.split(sep)` for a one-character separator, on the
character list of the string: empty segments are kept and the empty
string splits to `[""]`. -/
def jsSplit (sep : Char) : List Char → List (List Char)
  | [] => [[]]
  | c :: cs =>
    if c = sep then [] :: jsSplit sep cs
    else
      match jsSplit sep cs with
      | [] => [[c]]
      | t :: ts => (c :: t) :: ts

/-- `(headers.authorization || '').split(' ')[1]`: the bearer token the
handler extracts, `none` when the header is absent or has no second
space-separated part (JS `undefined`). -/
def headerToken (auth : Option String) : Option String :=
  ((jsSplit ' ' (auth.getD "").data)[1]?).map String.mk

/-- `validateAuthorization`: the extracted token must be `===` to
`CRON_TOKEN` (both may be `undefined`, modelled by `Option`). -/
def validateAuthorization (cronToken : Option String) (auth : Option String) :
    Bool :=
  headerToken auth == cronToken

/-- JS truthiness of a string-or-`undefined` value: `undefined` and the
empty string are falsy. -/
def jsTruthy : Option String → Bool
  | none => false
  | some s => !(s == "")

/-- The body of one upstream JSON response, as far as the handler reads
it: the `/quote` fields `o,h,l,c` and the `/scan/support-resistance`
field `levels`. -/
structure ApiData where
  o : ℚ
  h : ℚ
  l : ℚ
  c : ℚ
  levels : List ℚ
deriving DecidableEq, Repr

/-- A fetch result as built by `fetchQuotes` / `fetchSupportResistance`:
the parsed JSON plus the `result` tag string. -/
structure TaggedResult where
  data : ApiData
  result : String
deriving DecidableEq, Repr

/-- The external world: what the upstream API answers for each
`(symbol, resolution)` pair on the quote and support-resistance
endpoints (successful fetches). -/
structure World where
  quoteData : String → String → ApiData
  srData : String → String → ApiData

/-- `fetchQuotes`: tag the quote endpoint's response with `'quotes'`. -/
def fetchQuotes (w : World) (symbol resolution : String) : TaggedResult :=
  ⟨w.quoteData symbol resolution, "quotes"⟩

/-- `fetchSupportResistance`: tag the scan endpoint's response with
`'supportResistance'`. -/
def fetchSupportResistance (w : World) (symbol resolution : String) :
    TaggedResult :=
  ⟨w.srData symbol resolution, "supportResistance"⟩

/-- `parseResults`: pick the first `'quotes'`-tagged and the first
`'supportResistance'`-tagged result, spread the quote fields and extract
`levels`.  Indexing `[0]` into an empty filter result makes the
subsequent field access throw in JS, modelled as `none`. -/
def parseResults (results : List TaggedResult) : Option ParsedResults :=
  match (results.filter (fun r => r.result == "quotes")).get? 0,
      (results.filter (fun r => r.result == "supportResistance")).get? 0 with
  | some q, some sr =>
    some { quotes := ⟨q.data.o, q.data.h, q.data.l, q.data.c⟩
           supportResistance := sr.data.levels }
  | _, _ => none

/-- Per-symbol record of the handler's output array. -/
structure ScanResult where
  symbol : String
  brokenLevels : List LevelBreak
deriving DecidableEq, Repr

/-- The hardcoded symbol universe. -/
def symbols : List String :=
  ["AAPL", "AMD", "CRM", "MSFT", "NIO", "NVDA", "TSLA", "XPEV"]

/-- One per-symbol task of the `Promise.all` fan-out: both fetches with
resolution `'D'`, then parse and determine level breaks. -/
def scanSymbol (w : World) (symbol : String) : Option ScanResult :=
  (parseResults [fetchQuotes w symbol "D",
      fetchSupportResistance w symbol "D"]).map
    (fun pr => ⟨symbol, determineLevelBreaks pr⟩)

/-- An HTTP response body: plain text or the serialized JSON array. -/
inductive Body where
  | text : String → Body
  | json : List ScanResult → Body
deriving DecidableEq, Repr

/-- The handler's HTTP response (status, content-type header, body). -/
structure Response where
  statusCode : Nat
  contentType : String
  body : Body
deriving DecidableEq, Repr

/-- The parts of the incoming request the handler reads: the
`authorization` header and the `symbol` / `resolution` query
parameters (each possibly absent). -/
structure Request where
  authorization : Option String
  symbol : Option String
  resolution : Option String
deriving DecidableEq, Repr

/-- Content-type of the plain-text failure responses. -/
def plainContentType : String := "text/plain; charset=utf8"

/-- Content-type of the JSON success response. -/
def jsonContentType : String := "application/json; charset=utf8"

/-- The request handler: the guard chain (`!CRON_TOKEN`, authorization,
`!symbol`, `!resolution`), then the all-or-nothing fan-out over the
fixed symbol universe, dropping symbols whose `brokenLevels` is empty
(`.filter(({brokenLevels}) => brokenLevels.length)`).  `none` models an
invocation that fails with an unhandled exception. -/
def handler (cronToken : Option String) (w : World) (req : Request) :
    Option Response :=
  if !(jsTruthy cronToken) then
    some ⟨500, plainContentType, Body.text "config not setup"⟩
  else if !(validateAuthorization cronToken req.authorization) then
    some ⟨401, plainContentType, Body.text "unauthorized"⟩
  else if !(jsTruthy req.symbol) then
    some ⟨412, plainContentType, Body.text "missing symbol"⟩
  else if !(jsTruthy req.resolution) then
    some ⟨412, plainContentType, Body.text "missing resolution"⟩
  else
    (symbols.mapM (fun s => scanSymbol w s)).map
      (fun rs => ⟨200, jsonContentType,
        Body.json (rs.filter (fun r => r.brokenLevels.length != 0))⟩)

/-- The merged per-symbol data produced by `parseResults` on the two
tagged fetch results for `symbol` at resolution `'D'`. -/
def parsedOf (w : World) (symbol : String) : ParsedResults :=
  { quotes := ⟨(w.quoteData symbol "D").o, (w.quoteData symbol "D").h,
      (w.quoteData symbol "D").l, (w.quoteData symbol "D").c⟩
    supportResistance := (w.srData symbol "D").levels }

/-- A world whose upstream answers are all-zero quotes and no levels. -/
def w0 : World := ⟨fun _ _ => ⟨0, 0, 0, 0, []⟩, fun _ _ => ⟨0, 0, 0, 0, []⟩⟩

/-- A world whose upstream answers are the spec's example-1 quote
`{o:100,h:110,l:95,c:108}` with the single level 105, for every symbol. -/
def w1 : World :=
  ⟨fun _ _ => ⟨100, 110, 95, 108, []⟩, fun _ _ => ⟨100, 110, 95, 108, [105]⟩⟩

/-- `jsSplit` always returns at least one segment. -/
theorem jsSplit_ne_nil (sep : Char) (l : List Char) : jsSplit sep l ≠ [] := by
  cases l with
  | nil => simp [jsSplit]
  | cons c cs =>
    simp only [jsSplit]
    split
    · simp
    · split
      · simp
      · simp

/-- A string without the separator splits into the single whole segment. -/
theorem jsSplit_of_not_mem (sep : Char) (l : List Char) (h : sep ∉ l) :
    jsSplit sep l = [l] := by
  induction l with
  | nil => rfl
  | cons c cs ih =>
    have hc : ¬(c = sep) := fun e => h (e ▸ List.mem_cons_self c cs)
    have hcs : sep ∉ cs := fun m => h (List.mem_cons_of_mem _ m)
    simp only [jsSplit, if_neg hc, ih hcs]

/-- Splitting `a ++ sep :: b` where `a` is separator-free peels off `a` as
the first segment. -/
theorem jsSplit_append (sep : Char) (a b : List Char) (h : sep ∉ a) :
    jsSplit sep (a ++ sep :: b) = a :: jsSplit sep b := by
  induction a with
  | nil => simp [jsSplit]
  | cons c cs ih =>
    have hc : ¬(c = sep) := fun e => h (e ▸ List.mem_cons_self c cs)
    have hcs : sep ∉ cs := fun m => h (List.mem_cons_of_mem _ m)
    simp only [List.cons_append, jsSplit, if_neg hc, List.append_eq, ih hcs]

/-- Membership characterisation of `determineLevelBreaks`: the outputs are
exactly the `mkBreak` images of input levels whose `broke` flag is set. -/
theorem mem_determineLevelBreaks (r : ParsedResults) (e : LevelBreak) :
    e ∈ determineLevelBreaks r ↔
      (∃ L ∈ r.supportResistance, mkBreak r.quotes L = e) ∧ e.broke = true := by
  simp [determineLevelBreaks, List.mem_filter, List.mem_map]

/-- C1: a support-break entry (broke, `resistance = L`) is produced for a
level `L` of the input sequence iff `o ≤ L` and `L ≤ h`. -/
theorem support_break_iff (q : Quote) (levels : List ℚ) (L : ℚ)
    (hL : L ∈ levels) :
    (∃ e ∈ determineLevelBreaks ⟨q, levels⟩,
        e.broke = true ∧ e.resistance = some L) ↔ (q.o ≤ L ∧ L ≤ q.h) := by
  constructor
  · rintro ⟨e, he, hbroke, hres⟩
    rw [mem_determineLevelBreaks] at he
    obtain ⟨⟨ℓ, _, hmk⟩, _⟩ := he
    unfold mkBreak at hmk
    split at hmk
    · rename_i hcond
      subst hmk
      simp only [LevelBreak.resistance, Option.some.injEq] at hres
      subst hres
      exact ⟨hcond.1, hcond.2⟩
    · split at hmk
      · subst hmk
        simp at hres
      · subst hmk
        simp at hbroke
  · rintro ⟨h1, h2⟩
    refine ⟨mkBreak q L, ?_, ?_⟩
    · rw [mem_determineLevelBreaks]
      refine ⟨⟨L, hL, rfl⟩, ?_⟩
      simp [mkBreak, h1, h2]
    · simp [mkBreak, h1, h2]

/-- Witness for C1 at the spec's example 1: quote `{o:100,h:110,l:95,c:108}`,
level 105. -/
theorem support_break_iff_witness :
    (∃ e ∈ determineLevelBreaks ⟨⟨100, 110, 95, 108⟩, [105]⟩,
        e.broke = true ∧ e.resistance = some 105) ↔
      ((100 : ℚ) ≤ 105 ∧ (105 : ℚ) ≤ 110) :=
  support_break_iff ⟨100, 110, 95, 108⟩ [105] 105 (by decide)

/-- C2 counterexample: for the degenerate quote `{o:0,h:0,l:0,c:0}` and
level `0` both break conditions hold, the support branch wins, and no
resistance-break entry (`support = some 0`) is emitted — refuting the
claimed iff with `o ≥ L ∧ L ≥ l`. -/
theorem resistance_break_iff_counterexample :
    ¬ ((∃ e ∈ determineLevelBreaks ⟨⟨0, 0, 0, 0⟩, [0]⟩,
          e.broke = true ∧ e.support = some 0) ↔
        ((0 : ℚ) ≥ 0 ∧ (0 : ℚ) ≥ 0)) := by
  decide

/-- C2 (amended): a resistance-break entry (broke, `support = L`) is
produced for a level `L` of the input sequence iff `o ≥ L ∧ L ≥ l` and
the support-break condition `o ≤ L ∧ L ≤ h` does not hold. -/
theorem resistance_break_iff (q : Quote) (levels : List ℚ) (L : ℚ)
    (hL : L ∈ levels) :
    (∃ e ∈ determineLevelBreaks ⟨q, levels⟩,
        e.broke = true ∧ e.support = some L) ↔
      (q.o ≥ L ∧ L ≥ q.l ∧ ¬(q.o ≤ L ∧ L ≤ q.h)) := by
  constructor
  · rintro ⟨e, he, hbroke, hsup⟩
    rw [mem_determineLevelBreaks] at he
    obtain ⟨⟨ℓ, _, hmk⟩, _⟩ := he
    unfold mkBreak at hmk
    split at hmk
    · subst hmk
      simp at hsup
    · split at hmk
      · rename_i hnot hcond
        subst hmk
        simp only [LevelBreak.support, Option.some.injEq] at hsup
        subst hsup
        exact ⟨hcond.1, hcond.2, hnot⟩
      · subst hmk
        simp at hbroke
  · rintro ⟨h1, h2, h3⟩
    refine ⟨mkBreak q L, ?_, ?_⟩
    · rw [mem_determineLevelBreaks]
      refine ⟨⟨L, hL, rfl⟩, ?_⟩
      simp [mkBreak, h3, h1, h2]
    · simp [mkBreak, h3, h1, h2]

/-- Witness for the amended C2 at the spec's example 2: quote
`{o:100,h:102,l:90,c:92}`, level 95. -/
theorem resistance_break_iff_witness :
    (∃ e ∈ determineLevelBreaks ⟨⟨100, 102, 90, 92⟩, [95]⟩,
        e.broke = true ∧ e.support = some 95) ↔
      ((100 : ℚ) ≥ 95 ∧ (95 : ℚ) ≥ 90 ∧
        ¬((100 : ℚ) ≤ 95 ∧ (95 : ℚ) ≤ 102)) :=
  resistance_break_iff ⟨100, 102, 90, 92⟩ [95] 95 (by decide)

/-- C3: in every emitted entry, if `resistance = L` then
`closedBroken = true ↔ c ≥ L`, and if `support = L` then
`closedBroken = true ↔ c ≤ L`. -/
theorem closedBroken_spec (r : ParsedResults) (e : LevelBreak)
    (he : e ∈ determineLevelBreaks r) (L : ℚ) :
    (e.resistance = some L → (e.closedBroken = some true ↔ r.quotes.c ≥ L)) ∧
      (e.support = some L → (e.closedBroken = some true ↔ r.quotes.c ≤ L)) := by
  rw [mem_determineLevelBreaks] at he
  obtain ⟨⟨ℓ, _, hmk⟩, _⟩ := he
  unfold mkBreak at hmk
  split at hmk
  · subst hmk
    constructor
    · rintro ⟨rfl⟩
      simp [decide_eq_true_iff]
    · intro h
      simp at h
  · split at hmk
    · subst hmk
      constructor
      · intro h
        simp at h
      · rintro ⟨rfl⟩
        simp [decide_eq_true_iff]
    · subst hmk
      constructor
      · intro h
        simp at h
      · intro h
        simp at h

/-- Witness for C3 on the support-break entry produced by the spec's
example 1: the entry `{broke, resistance:105, closedBroken:true}` is in the
output and its `closedBroken` agrees with `c ≥ L` (108 ≥ 105). -/
theorem closedBroken_spec_witness :
    ((⟨true, some 105, none, some true⟩ : LevelBreak) =
        (⟨true, some 105, none, some true⟩ : LevelBreak)) ∧
      ((⟨true, some 105, none, some true⟩ : LevelBreak).closedBroken
          = some true ↔ (108 : ℚ) ≥ 105) :=
  ⟨rfl,
    (closedBroken_spec ⟨⟨100, 110, 95, 108⟩, [105]⟩
        ⟨true, some 105, none, some true⟩ (by decide) 105).1 rfl⟩

/-- C4: the output of `determineLevelBreaks` is the input level sequence
filter-mapped in order through a per-level choice that emits the
support-break entry when `o ≤ L ≤ h` holds (even if the resistance
condition also holds), else the resistance-break entry when
`o ≥ L ∧ l ≤ L` holds, else nothing — so each level contributes at most
one entry, the support branch has priority, and output order mirrors
input order; in particular the output is no longer than the input. -/
theorem determineLevelBreaks_filterMap (q : Quote) (levels : List ℚ) :
    determineLevelBreaks ⟨q, levels⟩ =
        levels.filterMap (fun L =>
          if q.o ≤ L ∧ L ≤ q.h then
            some ⟨true, some L, none, some (decide (q.c ≥ L))⟩
          else if q.o ≥ L ∧ q.l ≤ L then
            some ⟨true, none, some L, some (decide (q.c ≤ L))⟩
          else none) ∧
      (determineLevelBreaks ⟨q, levels⟩).length ≤ levels.length := by
  have heq : determineLevelBreaks ⟨q, levels⟩ =
      levels.filterMap (fun L =>
        if q.o ≤ L ∧ L ≤ q.h then
          some ⟨true, some L, none, some (decide (q.c ≥ L))⟩
        else if q.o ≥ L ∧ q.l ≤ L then
          some ⟨true, none, some L, some (decide (q.c ≤ L))⟩
        else none) := by
    induction levels with
    | nil => rfl
    | cons L ls ih =>
      simp only [determineLevelBreaks, List.map_cons, List.filter_cons,
        List.filterMap_cons] at ih ⊢
      by_cases h1 : q.o ≤ L ∧ q.h ≥ L
      · have h1' : q.o ≤ L ∧ L ≤ q.h := h1
        simp only [mkBreak, if_pos h1, if_pos h1']
        simpa using ih
      · have h1' : ¬(q.o ≤ L ∧ L ≤ q.h) := h1
        by_cases h2 : q.o ≥ L ∧ q.l ≤ L
        · simp only [mkBreak, if_neg h1, if_pos h2, if_neg h1']
          simpa using ih
        · simp only [mkBreak, if_neg h1, if_neg h2, if_neg h1']
          simpa using ih
  exact ⟨heq, heq ▸ List.length_filterMap_le _ _⟩

/-- Every entry of `determineLevelBreaks` has `broke = true` (the
`broke: false` markers are filtered out). -/
theorem broke_of_mem_determineLevelBreaks (r : ParsedResults)
    (e : LevelBreak) (he : e ∈ determineLevelBreaks r) : e.broke = true :=
  ((mem_determineLevelBreaks r e).mp he).2

/-- The per-symbol task never throws: its two fetch results carry the two
distinct tags, so `parseResults` finds both and the task returns the
symbol with its computed level breaks. -/
theorem scanSymbol_eq (w : World) (symbol : String) :
    scanSymbol w symbol = some ⟨symbol, determineLevelBreaks (parsedOf w symbol)⟩ :=
  rfl

/-- The fan-out over the fixed symbol universe always succeeds, returning
the per-symbol scans in order. -/
theorem symbols_mapM_eq (w : World) :
    symbols.mapM (fun s => scanSymbol w s) =
      some (symbols.map
        (fun s => ⟨s, determineLevelBreaks (parsedOf w s)⟩)) := by
  simp [symbols, List.mapM, List.mapM.loop, scanSymbol_eq]

/-- C5: every 200 response carries a JSON array in which each record has a
non-empty `brokenLevels`, each `LevelBreak` in it has `broke = true`, and
each record is exactly the computed scan of its symbol — so a symbol
whose computed `brokenLevels` is empty does not appear at all. -/
theorem handler_200_invariant (ct : Option String) (w : World)
    (req : Request) (resp : Response) (hresp : handler ct w req = some resp)
    (h200 : resp.statusCode = 200) :
    ∃ rs, resp.body = Body.json rs ∧
      ∀ r ∈ rs, r.brokenLevels ≠ [] ∧
        (∀ e ∈ r.brokenLevels, e.broke = true) ∧
        scanSymbol w r.symbol = some r := by
  unfold handler at hresp
  split at hresp
  · cases hresp
    cases h200
  · split at hresp
    · cases hresp
      cases h200
    · split at hresp
      · cases hresp
        cases h200
      · split at hresp
        · cases hresp
          cases h200
        · rw [symbols_mapM_eq, Option.map_some'] at hresp
          cases hresp
          refine ⟨_, rfl, ?_⟩
          intro r hr
          rw [List.mem_filter] at hr
          obtain ⟨hmem, hlen⟩ := hr
          rw [List.mem_map] at hmem
          obtain ⟨s, _, hs⟩ := hmem
          refine ⟨?_, ?_, ?_⟩
          · intro hnil
            rw [hnil] at hlen
            simp at hlen
          · intro e hel
            exact broke_of_mem_determineLevelBreaks _ e (by
              rw [← hs] at hel
              exact hel)
          · rw [← hs]
            exact scanSymbol_eq w s

/-- Witness for C5: a concrete authorized request against `w1` yields a
200 response whose array holds all eight symbols, each with the single
support-break entry at level 105. -/
theorem handler_200_invariant_witness :
    ∃ rs, (Body.json (symbols.map
        (fun s => ⟨s, [⟨true, some 105, none, some true⟩]⟩))) = Body.json rs ∧
      ∀ r ∈ rs, r.brokenLevels ≠ [] ∧
        (∀ e ∈ r.brokenLevels, e.broke = true) ∧
        scanSymbol w1 r.symbol = some r :=
  handler_200_invariant (some "tok") w1
    ⟨some "Bearer tok", some "AAPL", some "D"⟩
    ⟨200, jsonContentType, Body.json (symbols.map
      (fun s => ⟨s, [⟨true, some 105, none, some true⟩]⟩))⟩
    (by rfl) rfl

/-- C6: the handler's guard chain, in order, each short-circuiting with
its distinct response: falsy `CRON_TOKEN` gives 500 "config not setup"
whatever the request holds; then failed authorization gives 401
"unauthorized"; then a falsy `symbol` parameter gives 412 "missing
symbol"; then a falsy `resolution` parameter gives 412 "missing
resolution". -/
theorem handler_guard_order (ct : Option String) (w : World) (req : Request) :
    (jsTruthy ct = false →
      handler ct w req =
        some ⟨500, plainContentType, Body.text "config not setup"⟩) ∧
      (jsTruthy ct = true →
        validateAuthorization ct req.authorization = false →
        handler ct w req =
          some ⟨401, plainContentType, Body.text "unauthorized"⟩) ∧
      (jsTruthy ct = true →
        validateAuthorization ct req.authorization = true →
        jsTruthy req.symbol = false →
        handler ct w req =
          some ⟨412, plainContentType, Body.text "missing symbol"⟩) ∧
      (jsTruthy ct = true →
        validateAuthorization ct req.authorization = true →
        jsTruthy req.symbol = true →
        jsTruthy req.resolution = false →
        handler ct w req =
          some ⟨412, plainContentType, Body.text "missing resolution"⟩) := by
  refine ⟨fun h1 => ?_, fun h1 h2 => ?_, fun h1 h2 h3 => ?_,
    fun h1 h2 h3 h4 => ?_⟩
  · simp [handler, h1]
  · simp [handler, h1, h2]
  · simp [handler, h1, h2, h3]
  · simp [handler, h1, h2, h3, h4]

/-- Witness for C6: the four guard responses at concrete requests, each
one guard deep. -/
theorem handler_guard_order_witness :
    handler none w0 ⟨some "Bearer tok", some "AAPL", some "D"⟩ =
        some ⟨500, plainContentType, Body.text "config not setup"⟩ ∧
      handler (some "tok") w0 ⟨some "Bearer bad", some "AAPL", some "D"⟩ =
        some ⟨401, plainContentType, Body.text "unauthorized"⟩ ∧
      handler (some "tok") w0 ⟨some "Bearer tok", none, some "D"⟩ =
        some ⟨412, plainContentType, Body.text "missing symbol"⟩ ∧
      handler (some "tok") w0 ⟨some "Bearer tok", some "AAPL", none⟩ =
        some ⟨412, plainContentType, Body.text "missing resolution"⟩ :=
  ⟨(handler_guard_order none w0 _).1 (by decide),
    (handler_guard_order (some "tok") w0 _).2.1 (by decide) (by decide),
    (handler_guard_order (some "tok") w0 _).2.2.1 (by decide) (by decide)
      (by decide),
    (handler_guard_order (some "tok") w0 _).2.2.2 (by decide) (by decide)
      (by decide) (by decide)⟩

/-- C7: with a non-empty configured secret — an absent `authorization`
header gets 401 "unauthorized"; a header whose extracted second
space-separated part differs from the secret gets 401; a header whose
second part equals the secret passes authorization, and any response then
produced is a query-parameter 412 or a 200. -/
theorem auth_token_check (s : String) (hs : s ≠ "") (w : World)
    (req : Request) :
    (req.authorization = none →
      handler (some s) w req =
        some ⟨401, plainContentType, Body.text "unauthorized"⟩) ∧
      (∀ v, req.authorization = some v → headerToken (some v) ≠ some s →
        handler (some s) w req =
          some ⟨401, plainContentType, Body.text "unauthorized"⟩) ∧
      (∀ v resp, req.authorization = some v → headerToken (some v) = some s →
        handler (some s) w req = some resp →
        resp.statusCode = 412 ∨ resp.statusCode = 200) := by
  have hts : jsTruthy (some s) = true := by
    simp [jsTruthy, hs]
  obtain ⟨auth, sym, res⟩ := req
  refine ⟨fun hnone => ?_, fun v hv hne => ?_, fun v resp hv heq hresp => ?_⟩
  · have hauth : auth = none := hnone
    subst hauth
    have hva : validateAuthorization (some s) none = false := rfl
    simp [handler, hts, hva]
  · have hauth : auth = some v := hv
    subst hauth
    have hva : validateAuthorization (some s) (some v) = false := by
      unfold validateAuthorization
      simp [hne]
    simp [handler, hts, hva]
  · have hauth : auth = some v := hv
    subst hauth
    have hva : validateAuthorization (some s) (some v) = true := by
      unfold validateAuthorization
      simp [heq]
    simp only [handler, hts, hva, Bool.not_true, Bool.false_eq_true,
      if_false] at hresp
    split at hresp
    · cases hresp
      exact Or.inl rfl
    · split at hresp
      · cases hresp
        exact Or.inl rfl
      · cases hmap : symbols.mapM (fun sym => scanSymbol w sym) with
        | none =>
          rw [hmap] at hresp
          cases hresp
        | some rs =>
          rw [hmap] at hresp
          cases hresp
          exact Or.inr rfl

/-- Witness for C7: secret `"tok"` — an absent header is 401, a wrong
token is 401, and the correct token with missing `symbol` proceeds to a
412. -/
theorem auth_token_check_witness :
    handler (some "tok") w0 ⟨none, some "AAPL", some "D"⟩ =
        some ⟨401, plainContentType, Body.text "unauthorized"⟩ ∧
      handler (some "tok") w0 ⟨some "Bearer bad", some "AAPL", some "D"⟩ =
        some ⟨401, plainContentType, Body.text "unauthorized"⟩ ∧
      ((412 : Nat) = 412 ∨ (412 : Nat) = 200) :=
  ⟨(auth_token_check "tok" (by decide) w0 _).1 rfl,
    (auth_token_check "tok" (by decide) w0 _).2.1 "Bearer bad" rfl
      (by decide),
    (auth_token_check "tok" (by decide) w0
        ⟨some "Bearer tok", none, none⟩).2.2 "Bearer tok"
      ⟨412, plainContentType, Body.text "missing symbol"⟩ rfl (by decide)
      (by rfl)⟩

/-- C8: authorization never inspects the scheme part — for a header
`a ++ " " ++ b` with space-free scheme `a`, the check succeeds iff the
segment of `b` before its first space is the secret, independently of
`a`; and a header without any space always fails, even when it equals
the secret itself. -/
theorem validateAuthorization_scheme_blind (s a b v : String) :
    (' ' ∉ a.data →
      (validateAuthorization (some s) (some (a ++ " " ++ b)) = true ↔
        (jsSplit ' ' b.data)[0]? = some s.data)) ∧
      (' ' ∉ v.data → validateAuthorization (some s) (some v) = false) := by
  constructor
  · intro ha
    have hdata : (a ++ " " ++ b).data = a.data ++ ' ' :: b.data := by
      simp [String.data_append]
    unfold validateAuthorization headerToken
    simp only [Option.getD_some, hdata, jsSplit_append ' ' a.data b.data ha,
      List.getElem?_cons_succ]
    cases hsplit : (jsSplit ' ' b.data)[0]? with
    | none =>
      simp [hsplit]
    | some t =>
      simp only [hsplit, Option.map_some', beq_iff_eq, Option.some.injEq]
      constructor
      · intro h
        rw [← h]
      · intro h
        cases s
        cases h
        rfl
  · intro hv
    have hsplit : jsSplit ' ' v.data = [v.data] :=
      jsSplit_of_not_mem ' ' v.data hv
    unfold validateAuthorization headerToken
    simp [hsplit]

/-- Witness for C8: secret `"tok"` — `"Bearer tok"` (and any other
scheme) authorizes because the second part is `"tok"`, while the
space-free header `"tok"`, equal to the secret, fails. -/
theorem validateAuthorization_scheme_blind_witness :
    ((validateAuthorization (some "tok") (some ("Bearer" ++ " " ++ "tok"))
          = true ↔
        (jsSplit ' ' "tok".data)[0]? = some "tok".data)) ∧
      validateAuthorization (some "tok") (some "tok") = false :=
  ⟨(validateAuthorization_scheme_blind "tok" "Bearer" "tok" "tok").1
      (by decide),
    (validateAuthorization_scheme_blind "tok" "Bearer" "tok" "tok").2
      (by decide)⟩

/-- C9: parameter presence is decided by truthiness — with the secret
configured and the token valid, an empty-string `symbol` gets 412
"missing symbol", and a non-empty `symbol` with an empty-string
`resolution` gets 412 "missing resolution". -/
theorem query_param_truthiness (s : String) (hs : s ≠ "") (w : World)
    (auth : Option String)
    (hauth : validateAuthorization (some s) auth = true) :
    (∀ res, handler (some s) w ⟨auth, some "", res⟩ =
        some ⟨412, plainContentType, Body.text "missing symbol"⟩) ∧
      (∀ sym, sym ≠ "" → handler (some s) w ⟨auth, some sym, some ""⟩ =
        some ⟨412, plainContentType, Body.text "missing resolution"⟩) := by
  have hts : jsTruthy (some s) = true := by
    simp [jsTruthy, hs]
  constructor
  · intro res
    simp [handler, hts, hauth, jsTruthy, hs]
  · intro sym hsym
    simp [handler, hts, hauth, jsTruthy, hs, hsym]

/-- Witness for C9: secret `"tok"`, header `"Bearer tok"`, with an
empty `symbol`, then with `symbol = "AAPL"` and an empty `resolution`. -/
theorem query_param_truthiness_witness :
    handler (some "tok") w0 ⟨some "Bearer tok", some "", none⟩ =
        some ⟨412, plainContentType, Body.text "missing symbol"⟩ ∧
      handler (some "tok") w0 ⟨some "Bearer tok", some "AAPL", some ""⟩ =
        some ⟨412, plainContentType, Body.text "missing resolution"⟩ :=
  ⟨(query_param_truthiness "tok" (by decide) w0 (some "Bearer tok")
        (by decide)).1 none,
    (query_param_truthiness "tok" (by decide) w0 (some "Bearer tok")
        (by decide)).2 "AAPL" (by decide)⟩

/-- C10: `parseResults` is insensitive to the order of its two tagged
inputs: on one `'quotes'`-tagged and one `'supportResistance'`-tagged
result it returns the same `ParsedResults` either way. -/
theorem parseResults_comm (r1 r2 : TaggedResult) (h1 : r1.result = "quotes")
    (h2 : r2.result = "supportResistance") :
    parseResults [r1, r2] = parseResults [r2, r1] := by
  have e1 : (r1.result == "quotes") = true := by
    rw [h1]
    decide
  have e2 : (r1.result == "supportResistance") = false := by
    rw [h1]
    decide
  have e3 : (r2.result == "quotes") = false := by
    rw [h2]
    decide
  have e4 : (r2.result == "supportResistance") = true := by
    rw [h2]
    decide
  simp [parseResults, List.filter_cons, e1, e2, e3, e4]

/-- Witness for C10 on two concrete tagged results. -/
theorem parseResults_comm_witness :
    parseResults [⟨⟨1, 2, 3, 4, [5]⟩, "quotes"⟩,
        ⟨⟨6, 7, 8, 9, [10]⟩, "supportResistance"⟩] =
      parseResults [⟨⟨6, 7, 8, 9, [10]⟩, "supportResistance"⟩,
        ⟨⟨1, 2, 3, 4, [5]⟩, "quotes"⟩] :=
  parseResults_comm ⟨⟨1, 2, 3, 4, [5]⟩, "quotes"⟩
    ⟨⟨6, 7, 8, 9, [10]⟩, "supportResistance"⟩ rfl rfl
